import Mathlib

/-!
Shallow embedding of the GoSynth synchronization tool (src/main.go) and
verification of its specified properties: the concurrent catalog fetch
orchestrator, the device/catalog reconciler, the per-entry sync executor
and the interactive device selector.
-/

set_option maxHeartbeats 1000000

namespace GoSynth

/-- Models the Go struct `Beatmap`: a single beatmap entry in the API
response, with fields `Filename` and `DownloadUrl`. -/
structure Beatmap where
  Filename : String
  DownloadUrl : String
deriving DecidableEq, Repr

/-- Models the Go struct `BeatmapPage`: a single paginated response from the
API, with a `Data` slice of beatmaps and the pagination counters. -/
structure BeatmapPage where
  Data : List Beatmap
  Count : Int
  Total : Int
  Page : Int
  PageCount : Int
deriving DecidableEq, Repr

/-- Models the Go struct `Device` with `Serial` and `Model` fields. -/
structure Device where
  Serial : String
  Model : String
deriving DecidableEq, Repr

/-! ## Concurrent fetch orchestrator

`fetchAllPagesConcurrently` in Go spawns one goroutine per page index
1..totalPages; every goroutine sends its fetched page on a buffered channel,
and after the WaitGroup join the channel is drained in completion order.
The nondeterministic completion order is modelled as an explicit list of
page indices that is a permutation of `[1, ..., totalPages]`. -/

/-- The page indices for which `fetchAllPagesConcurrently` spawns fetch
tasks: the Go loop `for pageNum := 1; pageNum <= totalPages; pageNum++`. -/
def spawnedPageIndices (totalPages : Nat) : List Nat :=
  List.range' 1 totalPages

/-- Models `fetchAllPagesConcurrently`: the result slice holds, in channel
completion order, the page fetched for each spawned index. `fetch` abstracts
the network-bound `fetchPage` and `completionOrder` is the order in which
the goroutines' sends are drained from the channel. -/
def fetchAllPagesConcurrently (fetch : Nat → BeatmapPage)
    (completionOrder : List Nat) : List BeatmapPage :=
  completionOrder.map fetch

/-! ## Reconciler

In Go's `main`, device files are loaded into `deviceFilesMap` (a
`map[string]bool` with `true` for every listed file), then every beatmap of
every page is appended to `missing` when its filename is not in the map. -/

/-- Models building `deviceFilesMap`: `for _, file := range files {
deviceFilesMap[file] = true }` over an initially empty map. -/
def buildDeviceFilesMap (files : List String) : String → Bool :=
  files.foldl (fun m file => fun s => if s = file then true else m s)
    (fun _ => false)

/-- Models the nested reconciliation loop of `main`: for each page in
`allPages`, for each beatmap in `page.Data`, append the beatmap to the
`missing` accumulator when `deviceFilesMap[beatmap.Filename]` is false. -/
def computeMissing (allPages : List BeatmapPage)
    (deviceFilesMap : String → Bool) : List Beatmap :=
  allPages.foldl
    (fun missing page =>
      page.Data.foldl
        (fun missing beatmap =>
          if deviceFilesMap beatmap.Filename then missing
          else missing ++ [beatmap])
        missing)
    []

/-- The reconciler pipeline of `main`: build the device-file map, then
collect the missing beatmaps. -/
def reconcile (allPages : List BeatmapPage) (files : List String) :
    List Beatmap :=
  computeMissing allPages (buildDeviceFilesMap files)

/-! ## Fatal catalog fetch errors

`fetchPage` in Go calls `log.Fatalf` (process termination) when the HTTP
request fails or when JSON decoding fails. The network is abstracted as a
function from page index to an outcome, and process termination is
modelled as the `Except.error` branch of the run. -/

/-- Outcome of the network/decoding work that `fetchPage` performs for one
page: the request may fail, the JSON decode may fail, or a page is
produced. -/
inductive FetchOutcome where
  | requestErr (msg : String)
  | decodeErr (msg : String)
  | ok (page : BeatmapPage)
deriving DecidableEq, Repr

/-- Fatal process termination raised by `log.Fatalf` inside `fetchPage`,
tagged with the page number and message, mirroring the two call sites. -/
inductive FatalError where
  | requestFailed (page : Nat) (msg : String)
  | jsonDecodeFailed (page : Nat) (msg : String)
deriving DecidableEq, Repr

/-- Models `fetchPage`: on a request error or a decode error the process
terminates fatally (`Except.error`); otherwise the decoded page is
returned. -/
def fetchPage (net : Nat → FetchOutcome) (page : Nat) :
    Except FatalError BeatmapPage :=
  match net page with
  | .requestErr msg => .error (.requestFailed page msg)
  | .decodeErr msg => .error (.jsonDecodeFailed page msg)
  | .ok p => .ok p

/-- Models the fallible orchestrator run: each spawned task runs
`fetchPage`; if any task hits a fatal error the whole run terminates with
it and no aggregate slice is produced. -/
def fetchAllPagesE (net : Nat → FetchOutcome) :
    List Nat → Except FatalError (List BeatmapPage)
  | [] => .ok []
  | p :: rest =>
    match fetchPage net p with
    | .error e => .error e
    | .ok page =>
      match fetchAllPagesE net rest with
      | .error e => .error e
      | .ok pages => .ok (page :: pages)

/-- The catalog-then-reconcile pipeline of `main`: fetch all pages, then
reconcile against the device files. A fatal fetch error terminates the run
before reconciliation. -/
def catalogThenReconcile (net : Nat → FetchOutcome)
    (completionOrder : List Nat) (files : List String) :
    Except FatalError (List Beatmap) :=
  match fetchAllPagesE net completionOrder with
  | .error e => .error e
  | .ok pages => .ok (reconcile pages files)

/-! ## Sync executor

`downloadAndPushBeatmap` in Go performs: HTTP GET of the download URL
(transport failure or non-200 status are returned errors), creation of a
temp file and copy of the body (failures returned), `adb push` via an
`exec.Cmd` that is only constructed when `serial != ""` (so an empty serial
makes `cmd.CombinedOutput()` dereference a nil pointer and panic), and a
final temp-file removal whose failure is only printed as a warning. The
outcomes of the external operations are abstracted into an environment. -/

/-- Outcomes of the external operations performed while syncing one
beatmap: `download` is `none` on transport failure or `some status`
otherwise; the remaining flags record whether temp-file creation, body
copy, `adb push` and temp-file removal succeed. -/
structure SyncEnv where
  download : Option Nat
  createOk : Bool
  copyOk : Bool
  pushOk : Bool
  removeOk : Bool
deriving DecidableEq, Repr

/-- The error values `downloadAndPushBeatmap` can return, one per `return
fmt.Errorf(...)` site in the Go function. -/
inductive SyncError where
  | downloadTransport (name : String)
  | downloadStatus (name : String) (status : Nat)
  | createFailed
  | copyFailed
  | pushFailed
deriving DecidableEq, Repr

/-- Result of one `downloadAndPushBeatmap` call: a returned `nil` error
(with a flag recording whether the cleanup warning was printed), a returned
non-nil error, or a nil-pointer panic that crashes the process. -/
inductive SyncResult where
  | success (cleanupWarned : Bool)
  | failure (e : SyncError)
  | nilDeref
deriving DecidableEq, Repr

/-- Models `downloadAndPushBeatmap` step by step: download (transport
error, then status check against 200), temp-file create, body copy, the
`serial != ""` guard before `cmd.CombinedOutput()` (empty serial leaves
`cmd` nil and panics), `adb push`, and the warn-only temp-file removal. -/
def downloadAndPushBeatmap (env : SyncEnv) (b : Beatmap) (serial : String) :
    SyncResult :=
  match env.download with
  | none => .failure (.downloadTransport b.Filename)
  | some status =>
    if status ≠ 200 then .failure (.downloadStatus b.Filename status)
    else if !env.createOk then .failure .createFailed
    else if !env.copyOk then .failure .copyFailed
    else if serial = "" then .nilDeref
    else if !env.pushOk then .failure .pushFailed
    else .success (!env.removeOk)

/-- Models the batch loop at the end of `main`: each missing beatmap is
synced in turn; a returned error is printed and the loop continues, while a
panic (`nilDeref`) crashes the process, so later entries are not reached. -/
def syncBatch (envOf : Beatmap → SyncEnv) (serial : String) :
    List Beatmap → List (Beatmap × SyncResult)
  | [] => []
  | b :: rest =>
    match downloadAndPushBeatmap (envOf b) b serial with
    | .nilDeref => [(b, .nilDeref)]
    | r => (b, r) :: syncBatch envOf serial rest

/-! ## Device selection

`selectDevice` returns an error for an empty device list, a failed
`fmt.Scanf` parse, or a choice outside `1..len(devices)`; otherwise it
returns `devices[choice-1].Serial`. The user's input is modelled as
`Option Int` (`none` for a parse failure). -/

/-- Models `selectDevice`: empty list, parse failure and out-of-range
choices are errors; an in-range choice selects `devices[choice-1]`. -/
def selectDevice (devices : List Device) (input : Option Int) :
    Except String String :=
  if devices.length = 0 then .error "no devices found"
  else
    match input with
    | none => .error "invalid choice"
    | some choice =>
      if h : choice < 1 ∨ choice > (devices.length : Int) then
        .error "invalid choice"
      else
        .ok (devices.get ⟨(choice - 1).toNat, by push_neg at h; omega⟩).Serial

/-! ## Reconciler characterization lemmas -/

theorem buildDeviceFilesMap_foldl (files : List String) (m : String → Bool)
    (s : String) :
    files.foldl (fun m file => fun t => if t = file then true else m t) m s
      = (m s || decide (s ∈ files)) := by
  induction files generalizing m with
  | nil => simp
  | cons file rest ih =>
    simp only [List.foldl_cons, ih, List.mem_cons]
    by_cases h : s = file <;> simp [h]

/-- The device-file map built by the Go loop is exactly membership in the
device file list. -/
theorem buildDeviceFilesMap_eq (files : List String) (s : String) :
    buildDeviceFilesMap files s = decide (s ∈ files) := by
  unfold buildDeviceFilesMap
  rw [buildDeviceFilesMap_foldl]
  simp

theorem computeMissing_inner_foldl (m : String → Bool) (l : List Beatmap)
    (acc : List Beatmap) :
    l.foldl
      (fun missing beatmap =>
        if m beatmap.Filename then missing else missing ++ [beatmap]) acc
      = acc ++ l.filter (fun b => !m b.Filename) := by
  induction l generalizing acc with
  | nil => simp
  | cons b rest ih =>
    simp only [List.foldl_cons]
    by_cases h : m b.Filename
    · rw [ih]; simp [List.filter_cons, h]
    · rw [ih]; simp [List.filter_cons, h]

theorem computeMissing_outer_foldl (m : String → Bool)
    (pages : List BeatmapPage) (acc : List Beatmap) :
    pages.foldl
      (fun missing page =>
        page.Data.foldl
          (fun missing beatmap =>
            if m beatmap.Filename then missing else missing ++ [beatmap])
          missing) acc
      = acc ++ (pages.flatMap (·.Data)).filter (fun b => !m b.Filename) := by
  induction pages generalizing acc with
  | nil => simp
  | cons page rest ih =>
    rw [List.foldl_cons, computeMissing_inner_foldl, ih]
    simp [List.flatMap_cons, List.filter_append, List.append_assoc]

/-- The nested loop of the reconciler is a filter over the concatenation of
all page entry slices. -/
theorem computeMissing_eq (pages : List BeatmapPage) (m : String → Bool) :
    computeMissing pages m
      = (pages.flatMap (·.Data)).filter (fun b => !m b.Filename) := by
  unfold computeMissing
  rw [computeMissing_outer_foldl]
  simp

/-- The reconciler keeps exactly the catalog entries whose filename is not
among the device files, in traversal order. -/
theorem reconcile_eq (pages : List BeatmapPage) (files : List String) :
    reconcile pages files
      = (pages.flatMap (·.Data)).filter
          (fun b => !decide (b.Filename ∈ files)) := by
  unfold reconcile
  rw [computeMissing_eq]
  exact List.filter_congr fun b _ => by rw [buildDeviceFilesMap_eq]

/-- Per-page form of the reconciler: the output is the concatenation of the
per-page filtered entry lists. -/
theorem reconcile_eq_join (pages : List BeatmapPage) (files : List String) :
    reconcile pages files
      = (pages.map
          (fun p => p.Data.filter
            (fun b => !decide (b.Filename ∈ files)))).flatten := by
  rw [reconcile_eq, List.flatMap_def, List.filter_flatten, List.map_map]
  rfl

/-! ## Claim theorems -/

/-- C1: for every pageCount N ≥ 1, the orchestrator returns exactly N
pages — one result per page index 1..N — regardless of the completion
order, and the result is a permutation of the pages
fetchPage(1)..fetchPage(N). -/
theorem fetchAll_length_and_perm (fetch : Nat → BeatmapPage) (N : Nat)
    (completionOrder : List Nat) (hN : 1 ≤ N)
    (horder : completionOrder.Perm (spawnedPageIndices N)) :
    (fetchAllPagesConcurrently fetch completionOrder).length = N ∧
    (fetchAllPagesConcurrently fetch completionOrder).Perm
      ((spawnedPageIndices N).map fetch) := by
  refine ⟨?_, horder.map fetch⟩
  rw [fetchAllPagesConcurrently, List.length_map, horder.length_eq,
    spawnedPageIndices, List.length_range']

/-- Witness for C1: two pages fetched in reversed completion order still
yield 2 results, a permutation of pages 1 and 2. -/
theorem fetchAll_length_and_perm_witness :
    (fetchAllPagesConcurrently (fun p => ⟨[], 5, 10, (p : Int), 2⟩)
      [2, 1]).length = 2 ∧
    (fetchAllPagesConcurrently (fun p => ⟨[], 5, 10, (p : Int), 2⟩)
      [2, 1]).Perm
      ((spawnedPageIndices 2).map (fun p => ⟨[], 5, 10, (p : Int), 2⟩)) :=
  fetchAll_length_and_perm (fun p => ⟨[], 5, 10, (p : Int), 2⟩) 2 [2, 1]
    (by decide) (by decide)

/-- C2: the reconciler never outputs an entry whose filename is on the
device (soundness) and outputs one element per occurrence of every entry
whose filename is not on the device (completeness per occurrence); in the
concrete scenario with device set {"a.synth"} and one page holding a.synth
and b.synth, the missing list is exactly [b.synth]. -/
theorem reconcile_sound_and_complete (pages : List BeatmapPage)
    (files : List String) :
    (∀ b ∈ reconcile pages files, b.Filename ∉ files) ∧
    (∀ b : Beatmap, b.Filename ∉ files →
      (reconcile pages files).countP (fun x => decide (x = b))
        = ((pages.flatMap (·.Data)).countP (fun x => decide (x = b)))) ∧
    reconcile
        [⟨[⟨"a.synth", "/dl/a"⟩, ⟨"b.synth", "/dl/b"⟩], 2, 2, 1, 1⟩]
        ["a.synth"]
      = [⟨"b.synth", "/dl/b"⟩] := by
  refine ⟨?_, ?_, by decide⟩
  · intro b hb
    rw [reconcile_eq] at hb
    have := List.of_mem_filter hb
    simpa using this
  · intro b hb
    rw [reconcile_eq, List.countP_filter]
    refine List.countP_congr fun x _ => ?_
    simp only [Bool.and_eq_true, decide_eq_true_eq, Bool.not_eq_true',
      decide_eq_false_iff_not]
    exact ⟨fun h => h.1, fun h => ⟨h, by rw [h]; exact hb⟩⟩

/-- Witness for C2: at the scenario input, b.synth is reported missing
once and its filename is indeed absent from the device set. -/
theorem reconcile_sound_and_complete_witness :
    (Beatmap.mk "b.synth" "/dl/b").Filename ∉ ["a.synth"] ∧
    (reconcile
        [⟨[⟨"a.synth", "/dl/a"⟩, ⟨"b.synth", "/dl/b"⟩], 2, 2, 1, 1⟩]
        ["a.synth"]).countP
        (fun x => decide (x = Beatmap.mk "b.synth" "/dl/b"))
      = (([⟨[⟨"a.synth", "/dl/a"⟩, ⟨"b.synth", "/dl/b"⟩], 2, 2, 1, 1⟩]
          : List BeatmapPage).flatMap (·.Data)).countP
        (fun x => decide (x = Beatmap.mk "b.synth" "/dl/b")) :=
  ⟨by decide,
    (reconcile_sound_and_complete
        [⟨[⟨"a.synth", "/dl/a"⟩, ⟨"b.synth", "/dl/b"⟩], 2, 2, 1, 1⟩]
        ["a.synth"]).2.1
      (Beatmap.mk "b.synth" "/dl/b") (by decide)⟩

/-- C3: the reconciler output is the concatenation of the per-page
filtered entry lists, each of which is a sublist of (hence in the same
relative order as) that page's entries; with an empty device set a single
page is returned whole, in input order. -/
theorem reconcile_preserves_order (pages : List BeatmapPage)
    (files : List String) :
    reconcile pages files
      = (pages.map
          (fun p => p.Data.filter
            (fun b => !decide (b.Filename ∈ files)))).flatten ∧
    (∀ p ∈ pages,
      (p.Data.filter (fun b => !decide (b.Filename ∈ files))).Sublist
        p.Data) ∧
    (∀ p : BeatmapPage, reconcile [p] [] = p.Data) := by
  refine ⟨reconcile_eq_join pages files, fun p _ => List.filter_sublist _,
    fun p => ?_⟩
  rw [reconcile_eq]
  simp

/-- Witness for C3: a three-entry page against an empty device set comes
back whole and in order, and its filtered form is a sublist of it. -/
theorem reconcile_preserves_order_witness :
    ((⟨[⟨"x", "/x"⟩, ⟨"y", "/y"⟩, ⟨"z", "/z"⟩], 3, 3, 1, 1⟩
        : BeatmapPage).Data.filter
      (fun b => !decide (b.Filename ∈ ([] : List String)))).Sublist
      (⟨[⟨"x", "/x"⟩, ⟨"y", "/y"⟩, ⟨"z", "/z"⟩], 3, 3, 1, 1⟩
        : BeatmapPage).Data ∧
    reconcile [⟨[⟨"x", "/x"⟩, ⟨"y", "/y"⟩, ⟨"z", "/z"⟩], 3, 3, 1, 1⟩] []
      = [⟨"x", "/x"⟩, ⟨"y", "/y"⟩, ⟨"z", "/z"⟩] :=
  ⟨(reconcile_preserves_order
      [⟨[⟨"x", "/x"⟩, ⟨"y", "/y"⟩, ⟨"z", "/z"⟩], 3, 3, 1, 1⟩] []).2.1
      _ (by decide),
    (reconcile_preserves_order
      [⟨[⟨"x", "/x"⟩, ⟨"y", "/y"⟩, ⟨"z", "/z"⟩], 3, 3, 1, 1⟩] []).2.2
      ⟨[⟨"x", "/x"⟩, ⟨"y", "/y"⟩, ⟨"z", "/z"⟩], 3, 3, 1, 1⟩⟩

/-- C4: when a filename absent from the device set occurs several times in
the catalog, the reconciler emits one element per occurrence: the number
of output elements carrying that filename equals the number of catalog
occurrences, with no de-duplication. -/
theorem reconcile_no_dedup (pages : List BeatmapPage) (files : List String)
    (name : String) (h : name ∉ files) :
    (reconcile pages files).countP (fun b => decide (b.Filename = name))
      = (pages.flatMap (·.Data)).countP
          (fun b => decide (b.Filename = name)) := by
  rw [reconcile_eq, List.countP_filter]
  refine List.countP_congr fun b _ => ?_
  simp only [Bool.and_eq_true, decide_eq_true_eq, Bool.not_eq_true',
    decide_eq_false_iff_not]
  exact ⟨fun hb => hb.1, fun hb => ⟨hb, by rw [hb]; exact h⟩⟩

/-- Witness for C4: the name dup.synth occurs twice across two pages and
is absent from the device files, and both occurrences are counted in the
missing list. -/
theorem reconcile_no_dedup_witness :
    "dup.synth" ∉ ["other.synth"] ∧
    (reconcile
        [⟨[⟨"dup.synth", "/1"⟩], 1, 2, 1, 2⟩,
          ⟨[⟨"dup.synth", "/2"⟩], 1, 2, 2, 2⟩]
        ["other.synth"]).countP
        (fun b => decide (b.Filename = "dup.synth"))
      = (([⟨[⟨"dup.synth", "/1"⟩], 1, 2, 1, 2⟩,
            ⟨[⟨"dup.synth", "/2"⟩], 1, 2, 2, 2⟩]
          : List BeatmapPage).flatMap (·.Data)).countP
          (fun b => decide (b.Filename = "dup.synth")) :=
  ⟨by decide,
    reconcile_no_dedup
      [⟨[⟨"dup.synth", "/1"⟩], 1, 2, 1, 2⟩,
        ⟨[⟨"dup.synth", "/2"⟩], 1, 2, 2, 2⟩]
      ["other.synth"] "dup.synth" (by decide)⟩

/-- C5: the reconciler is deterministic and idempotent: two runs on the
same page aggregate (same pages, same order) and the same device files
produce identical missing lists. -/
theorem reconcile_deterministic (pages₁ pages₂ : List BeatmapPage)
    (files₁ files₂ : List String) (hp : pages₁ = pages₂)
    (hf : files₁ = files₂) :
    reconcile pages₁ files₁ = reconcile pages₂ files₂ := by
  rw [hp, hf]

/-- Witness for C5: two runs at a concrete input coincide. -/
theorem reconcile_deterministic_witness :
    reconcile [⟨[⟨"a.synth", "/dl/a"⟩], 1, 1, 1, 1⟩] ["a.synth"]
      = reconcile [⟨[⟨"a.synth", "/dl/a"⟩], 1, 1, 1, 1⟩] ["a.synth"] :=
  reconcile_deterministic _ _ _ _ rfl rfl

/-- A fatal error on any spawned page makes the whole orchestrator run
terminate with a fatal error. -/
theorem fetchAllPagesE_error_of_mem (net : Nat → FetchOutcome)
    (order : List Nat) (p : Nat) (hp : p ∈ order) (e : FatalError)
    (he : fetchPage net p = .error e) :
    ∃ e', fetchAllPagesE net order = .error e' := by
  induction order with
  | nil => cases hp
  | cons q rest ih =>
    rcases List.mem_cons.mp hp with hq | hq
    · subst hq
      exact ⟨e, by rw [fetchAllPagesE, he]⟩
    · rw [fetchAllPagesE]
      cases hq2 : fetchPage net q with
      | error e2 => exact ⟨e2, rfl⟩
      | ok page =>
        obtain ⟨e', he'⟩ := ih hq
        exact ⟨e', by rw [he']⟩

/-- C6: a request or decode failure on any page p of the spawned range is
fatal: the whole run terminates with a fatal error, no page aggregate is
produced, and reconciliation is never reached (the pipeline never returns
an ok missing list). -/
theorem fetchFailure_is_fatal (net : Nat → FetchOutcome) (N : Nat)
    (completionOrder : List Nat) (files : List String)
    (horder : completionOrder.Perm (spawnedPageIndices N)) (p : Nat)
    (hp : p ∈ spawnedPageIndices N) (e : FatalError)
    (he : fetchPage net p = .error e) :
    (∃ e', fetchAllPagesE net completionOrder = .error e') ∧
    (∃ e', catalogThenReconcile net completionOrder files = .error e') ∧
    ∀ missing : List Beatmap,
      catalogThenReconcile net completionOrder files ≠ .ok missing := by
  have hmem : p ∈ completionOrder := horder.mem_iff.mpr hp
  obtain ⟨e', he'⟩ := fetchAllPagesE_error_of_mem net completionOrder p
    hmem e he
  refine ⟨⟨e', he'⟩, ⟨e', ?_⟩, fun missing hok => ?_⟩
  · rw [catalogThenReconcile, he']
  · rw [catalogThenReconcile, he'] at hok
    exact Except.noConfusion hok

/-- Witness for C6: with 3 pages and page 2 failing with a network error,
the run (drained in order [3, 1, 2]) ends in a fatal error and never
reaches reconciliation. -/
theorem fetchFailure_is_fatal_witness :
    (∃ e', fetchAllPagesE
        (fun p => if p = 2 then .requestErr "NetworkError"
          else .ok ⟨[], 0, 0, (p : Int), 3⟩) [3, 1, 2] = .error e') ∧
    (∃ e', catalogThenReconcile
        (fun p => if p = 2 then .requestErr "NetworkError"
          else .ok ⟨[], 0, 0, (p : Int), 3⟩) [3, 1, 2] ["a.synth"]
        = .error e') ∧
    ∀ missing : List Beatmap,
      catalogThenReconcile
        (fun p => if p = 2 then .requestErr "NetworkError"
          else .ok ⟨[], 0, 0, (p : Int), 3⟩) [3, 1, 2] ["a.synth"]
        ≠ .ok missing :=
  fetchFailure_is_fatal
    (fun p => if p = 2 then .requestErr "NetworkError"
      else .ok ⟨[], 0, 0, (p : Int), 3⟩) 3 [3, 1, 2] ["a.synth"]
    (by decide) 2 (by decide) (.requestFailed 2 "NetworkError") (by rfl)

/-- With a non-empty serial the nil-command panic is unreachable. -/
theorem downloadAndPushBeatmap_ne_nilDeref (env : SyncEnv) (b : Beatmap)
    (serial : String) (h : serial ≠ "") :
    downloadAndPushBeatmap env b serial ≠ .nilDeref := by
  rw [downloadAndPushBeatmap]
  cases env.download with
  | none => simp
  | some status =>
    by_cases hs : status ≠ 200 <;>
      by_cases h1 : (!env.createOk) = true <;>
        by_cases h2 : (!env.copyOk) = true <;>
          by_cases h3 : (!env.pushOk) = true <;>
            simp [hs, h1, h2, h3, h]

/-- C7: with a non-empty serial, the batch loop records one result per
missing entry — a per-entry failure never aborts the remaining batch — a
404 download status yields a returned download error for that entry, and a
failed device transfer yields a returned push error. -/
theorem syncBatch_continues_on_failure (envOf : Beatmap → SyncEnv)
    (serial : String) (missing : List Beatmap) (h : serial ≠ "") :
    syncBatch envOf serial missing
      = missing.map (fun b => (b, downloadAndPushBeatmap (envOf b) b serial))
    ∧ (∀ (env : SyncEnv) (b : Beatmap), env.download = some 404 →
        downloadAndPushBeatmap env b serial
          = .failure (.downloadStatus b.Filename 404))
    ∧ (∀ (env : SyncEnv) (b : Beatmap), env.download = some 200 →
        env.createOk = true → env.copyOk = true → env.pushOk = false →
        downloadAndPushBeatmap env b serial = .failure .pushFailed) := by
  refine ⟨?_, ?_, ?_⟩
  · induction missing with
    | nil => rfl
    | cons b rest ih =>
      have hne := downloadAndPushBeatmap_ne_nilDeref (envOf b) b serial h
      rw [List.map_cons, ← ih]
      cases hr : downloadAndPushBeatmap (envOf b) b serial with
      | success w => rw [syncBatch, hr]
      | failure e => rw [syncBatch, hr]
      | nilDeref => exact absurd hr hne
  · intro env b hd
    rw [downloadAndPushBeatmap, hd]
    simp
  · intro env b hd hc hcp hpush
    rw [downloadAndPushBeatmap, hd]
    simp [hc, hcp, hpush, h]

/-- Witness for C7: a two-entry batch whose first entry gets HTTP 404 still
processes the second entry, which gets a push failure; both results are
recorded. -/
theorem syncBatch_continues_on_failure_witness :
    syncBatch
        (fun b => if b.Filename = "x" then ⟨some 404, true, true, true, true⟩
          else ⟨some 200, true, true, false, true⟩)
        "serialA" [⟨"x", "/x"⟩, ⟨"y", "/y"⟩]
      = ([⟨"x", "/x"⟩, ⟨"y", "/y"⟩] : List Beatmap).map
          (fun b => (b, downloadAndPushBeatmap
            (if b.Filename = "x" then ⟨some 404, true, true, true, true⟩
              else ⟨some 200, true, true, false, true⟩) b "serialA")) ∧
    downloadAndPushBeatmap ⟨some 404, true, true, true, true⟩
        ⟨"x", "/x"⟩ "serialA"
      = .failure (.downloadStatus "x" 404) ∧
    downloadAndPushBeatmap ⟨some 200, true, true, false, true⟩
        ⟨"y", "/y"⟩ "serialA"
      = .failure .pushFailed :=
  ⟨(syncBatch_continues_on_failure _ "serialA" [⟨"x", "/x"⟩, ⟨"y", "/y"⟩]
      (by decide)).1,
    (syncBatch_continues_on_failure
        (fun b => if b.Filename = "x" then ⟨some 404, true, true, true, true⟩
          else ⟨some 200, true, true, false, true⟩)
        "serialA" [] (by decide)).2.1 _ _ rfl,
    (syncBatch_continues_on_failure
        (fun b => if b.Filename = "x" then ⟨some 404, true, true, true, true⟩
          else ⟨some 200, true, true, false, true⟩)
        "serialA" [] (by decide)).2.2 _ _ rfl rfl rfl rfl⟩

/-- C8: when download, temp-file write and device push all succeed,
`downloadAndPushBeatmap` returns success whatever the temp-file removal
does; a removal failure only sets the printed-warning flag and is never
propagated as an error. -/
theorem syncSuccess_despite_cleanup_failure (env : SyncEnv) (b : Beatmap)
    (serial : String) (h : serial ≠ "") (hd : env.download = some 200)
    (hc : env.createOk = true) (hcp : env.copyOk = true)
    (hp : env.pushOk = true) :
    downloadAndPushBeatmap env b serial = .success (!env.removeOk) := by
  rw [downloadAndPushBeatmap, hd]
  simp [hc, hcp, hp, h]

/-- Witness for C8: with a failing temp-file removal and every other step
succeeding, the sync still returns success (with the warning flag set). -/
theorem syncSuccess_despite_cleanup_failure_witness :
    downloadAndPushBeatmap ⟨some 200, true, true, true, false⟩
        ⟨"x", "/x"⟩ "serialA"
      = .success true :=
  syncSuccess_despite_cleanup_failure ⟨some 200, true, true, true, false⟩
    ⟨"x", "/x"⟩ "serialA" (by decide) rfl rfl rfl rfl

/-- C9: with an empty serial and a successful download-to-temp, the push
step hits the nil command handle and the call crashes instead of returning
an error; with a non-empty serial the crash is unreachable. -/
theorem emptySerial_crashes :
    (∀ (env : SyncEnv) (b : Beatmap), env.download = some 200 →
      env.createOk = true → env.copyOk = true →
      downloadAndPushBeatmap env b "" = .nilDeref) ∧
    (∀ (env : SyncEnv) (b : Beatmap) (serial : String), serial ≠ "" →
      downloadAndPushBeatmap env b serial ≠ .nilDeref) := by
  refine ⟨fun env b hd hc hcp => ?_,
    fun env b serial h => downloadAndPushBeatmap_ne_nilDeref env b serial h⟩
  rw [downloadAndPushBeatmap, hd]
  simp [hc, hcp]

/-- Witness for C9: a concrete successful download with empty serial
crashes, while the same call with serial "serialA" does not. -/
theorem emptySerial_crashes_witness :
    downloadAndPushBeatmap ⟨some 200, true, true, true, true⟩
        ⟨"x", "/x"⟩ "" = .nilDeref ∧
    downloadAndPushBeatmap ⟨some 200, true, true, true, true⟩
        ⟨"x", "/x"⟩ "serialA" ≠ .nilDeref :=
  ⟨emptySerial_crashes.1 _ _ rfl rfl rfl,
    emptySerial_crashes.2 _ _ "serialA" (by decide)⟩

/-- C10: `selectDevice` errors exactly on an empty device list, an
unparsable input, or a choice outside 1..len(devices); every in-range
choice c returns the serial of the c-th device, the index access being in
bounds. -/
theorem selectDevice_spec (devices : List Device) (input : Option Int) :
    (devices = [] → selectDevice devices input = .error "no devices found")
    ∧ (devices ≠ [] → input = none →
        selectDevice devices input = .error "invalid choice")
    ∧ (∀ c : Int, devices ≠ [] →
        (c < 1 ∨ c > (devices.length : Int)) →
        selectDevice devices (some c) = .error "invalid choice")
    ∧ (∀ (c : Int) (h1 : 1 ≤ c) (h2 : c ≤ (devices.length : Int)),
        selectDevice devices (some c)
          = .ok (devices.get ⟨(c - 1).toNat, by omega⟩).Serial) := by
  refine ⟨fun hempty => ?_, fun hne hnone => ?_, fun c hne hout => ?_,
    fun c h1 h2 => ?_⟩
  · subst hempty; rfl
  · subst hnone
    rw [selectDevice, if_neg (by simpa using hne)]
  · rw [selectDevice, if_neg (by simpa [List.length_eq_zero] using hne)]
    exact dif_pos hout
  · have hlen : devices.length ≠ 0 := by omega
    rw [selectDevice, if_neg hlen, dif_neg (by omega)]

/-- Witness for C10: choice 2 out of two devices selects the second
device's serial. -/
theorem selectDevice_spec_witness :
    selectDevice [⟨"S1", "M1"⟩, ⟨"S2", "M2"⟩] (some 2) = .ok "S2" :=
  (selectDevice_spec [⟨"S1", "M1"⟩, ⟨"S2", "M2"⟩] (some 2)).2.2.2 2
    (by decide) (by decide)

end GoSynth
